import Mathlib

/-!
Verification of the account-provisioning orchestrator (app.py, config.py,
email_manager.py) against its natural-language specification.

The Python sources are shallowly embedded:
  * Python `str` values are Lean `String`s; the string manipulations the code
    performs (`split`, `lower`, `upper`, `replace`, `isalnum`, membership)
    are defined below over `String.data : List Char` so that every
    definition evaluates inside the kernel.
  * The global dicts `accounts : Dict[str, AccountInfo]` and
    `workers : Dict[int, BrowserWorker]` are association lists with the
    dict update/lookup operations; `task_queue : queue.Queue` is a FIFO list.
  * The external collaborators (the `requests` HTTP library, the stdlib
    `re.search` regex engine and `email.utils.parsedate_to_datetime`) are
    modelled as explicit inputs: a sequence of poll outcomes and an
    environment of extraction oracles.  All control flow around them -
    which is what the spec describes - is translated from the source.
  * Timestamps are integers (seconds); `timedelta(minutes=1)` is 60.
-/

namespace TestBand

/-! ## Python string primitives over `List Char` -/

/-- Model of Python `str.lower()` (ASCII case folding, which is all the code
relies on: domains and hex escapes). -/
def pyLower (s : String) : String :=
  (s.data.map Char.toLower).asString

/-- Model of Python `str.upper()`. -/
def pyUpper (s : String) : String :=
  (s.data.map Char.toUpper).asString

/-- Model of Python `str.isalnum()`: nonempty and every character
alphanumeric. -/
def pyIsAlnum (s : String) : Bool :=
  !s.data.isEmpty && s.data.all (fun c => c.isAlphanum)

/-- Model of Python `str.split(sep)` for a one-character separator:
`splitOnChar '@' "a@b@c".data = [['a'],['b'],['c']]`. -/
def splitOnChar (sep : Char) : List Char → List (List Char)
  | [] => [[]]
  | c :: rest =>
      let r := splitOnChar sep rest
      if c == sep then [] :: r
      else
        match r with
        | [] => [[c]]
        | h :: t => (c :: h) :: t

/-- Does `pat` occur at the head of `s`? (helper for `str.replace`). -/
def matchesAt (pat s : List Char) : Bool :=
  match pat, s with
  | [], _ => true
  | _ :: _, [] => false
  | a :: pa, b :: sb => a == b && matchesAt pa sb

/-- Fuelled worker for `replaceAll`; the fuel is an upper bound on the input
length, so the wrapper below always supplies enough.  Structural recursion on
the fuel keeps the definition kernel-reducible. -/
def replaceAllF (p : Char) (ps rep : List Char) : Nat → List Char → List Char
  | 0, s => s
  | _ + 1, [] => []
  | fuel + 1, c :: rest =>
      if matchesAt (p :: ps) (c :: rest) then
        rep ++ replaceAllF p ps rep fuel (List.drop ps.length rest)
      else
        c :: replaceAllF p ps rep fuel rest

/-- Model of Python `str.replace(pat, rep)` for the nonempty pattern
`p :: ps`: left-to-right, non-overlapping, the replacement text is not
rescanned. -/
def replaceAll (p : Char) (ps rep : List Char) (s : List Char) : List Char :=
  replaceAllF p ps rep s.length s

/-- Does the nonempty pattern `p :: ps` occur anywhere in `s`? -/
def containsPat (p : Char) (ps : List Char) : List Char → Bool
  | [] => false
  | c :: rest => matchesAt (p :: ps) (c :: rest) || containsPat p ps rest

/-! ## config.py -/

/-- One mailbox-provider entry of `Config._email_configs`
(`worker_domain`, `email_domain`, `admin_password`). -/
structure EmailConfig where
  worker_domain : String
  email_domain : String
  admin_password : String
  deriving DecidableEq, Repr

/-- The fields of `config.Config` the orchestrator core reads
(`_max_workers` is an `int`; browser/fingerprint settings are irrelevant to
the claims and omitted). -/
structure Config where
  max_workers : Int
  email_configs : List EmailConfig
  deriving DecidableEq, Repr

/-- `Config.set_max_workers`: `self._max_workers = max(1, min(count, 10))`. -/
def Config.set_max_workers (c : Config) (count : Int) : Config :=
  { c with max_workers := max 1 (min count 10) }

/-- `Config.get_email_configs_safe`: each entry re-emitted with
`admin_password` replaced by the literal `'***'`. -/
def Config.get_email_configs_safe (c : Config) : List EmailConfig :=
  c.email_configs.map (fun cfg =>
    { worker_domain := cfg.worker_domain,
      email_domain := cfg.email_domain,
      admin_password := "***" })

/-! ## email_manager.py -/

/-- One element of the `results` array of the mail-listing response; only the
`raw` field is read. -/
structure Message where
  raw : String
  deriving DecidableEq, Repr

/-- Outcome of one `requests.get` poll in `check_verification_code`: either
the call (or `res.json()`) raised, or a response with a status code and a
parsed `results` list arrived. -/
inductive PollResult where
  | transportError
  | response (status : Nat) (results : List Message)
  deriving DecidableEq, Repr

/-- Oracles for the stdlib functions `check_verification_code` applies to
message text: `receivedDate` is `re.search(Received-regex, raw, DOTALL)`
followed by `.group(1).strip()`; `parsedate` is
`email.utils.parsedate_to_datetime` as UTC epoch seconds (`none` models a
parse exception or a missing timezone); `reSearchGroup pat text` is
`re.search(pat, text, IGNORECASE | DOTALL)` followed by `.group(1)`. -/
structure MailEnv where
  receivedDate : String → Option String
  parsedate : String → Option Int
  reSearchGroup : String → String → Option String

/-- The `Received`-header timestamp of a raw message, when it parses
(lines 83-87 of email_manager.py). -/
def extractEmailTime (env : MailEnv) (raw : String) : Option Int :=
  (env.receivedDate raw).bind env.parsedate

/-- `cleaned_content = raw.replace('=\r\n','').replace('=\n','').replace('=3D','=')`
(line 98 of email_manager.py), over the character list. -/
def normalizeBody (s : List Char) : List Char :=
  replaceAll ('=') ['3', 'D'] ['=']
    (replaceAll ('=') ['\n'] []
      (replaceAll ('=') ['\r', '\n'] [] s))

/-- The four regex patterns of `check_verification_code`, in source order
(the brace-quantified count 6 and the quote alternatives appear verbatim;
`\x27` is the single-quote character). -/
def codePatterns : List String :=
  [ "class=[\"\x27]?verification-code[\"\x27]?[^>]*>([A-Z0-9]{6})</span>",
    "verification-code[^>]*>([A-Z0-9]{6})<",
    ">([A-Z0-9]{6})</span>",
    "font-size:\\s*28px[^>]*>([A-Z0-9]{6})<" ]

/-- The pattern loop of `check_verification_code` (lines 107-113): first
pattern whose match, uppercased, is a 6-character alphanumeric token wins;
a match failing that check falls through to the next pattern. -/
def tryPatterns (env : MailEnv) (cleaned : String) : List String → Option String
  | [] => none
  | pat :: rest =>
      match env.reSearchGroup pat cleaned with
      | some captured =>
          let code := pyUpper captured
          if code.data.length == 6 && pyIsAlnum code then some code
          else tryPatterns env cleaned rest
      | none => tryPatterns env cleaned rest

/-- One iteration of the polling loop of `check_verification_code` at clock
value `now`: `some code` models `return code`, `none` models
"sleep for the interval and fall through to the next attempt".  A stale
timestamp (strictly more than 60 seconds older than `now`) short-circuits
before any pattern is tried; a failed or absent timestamp parse falls
through to extraction, as in the source's inner `try/except`. -/
def pollOnce (env : MailEnv) (now : Int) (pr : PollResult) : Option String :=
  match pr with
  | PollResult.transportError => none
  | PollResult.response status results =>
      if status == 200 then
        match results with
        | [] => none
        | msg :: _ =>
            let stale : Bool :=
              match extractEmailTime env msg.raw with
              | some t => decide (now - t > 60)
              | none => false
            if stale then none
            else
              let cleaned := (normalizeBody msg.raw.data).asString
              tryPatterns env cleaned codePatterns
      else none

/-- The attempt loop of `check_verification_code`, one fuel unit per loop
iteration; `polls k` is the clock value and poll outcome of attempt `k`. -/
def checkFrom (env : MailEnv) (polls : Nat → Int × PollResult) : Nat → Nat → Option String
  | _, 0 => none
  | attempt, fuel + 1 =>
      match pollOnce env (polls attempt).1 (polls attempt).2 with
      | some code => some code
      | none => checkFrom env polls (attempt + 1) fuel

/-- `EmailManager.check_verification_code(email, max_retries, interval)`:
up to `max_retries` polls, `None` when the budget is exhausted.  The polled
address and the interval do not influence the control flow and live inside
`polls`. -/
def check_verification_code (env : MailEnv) (polls : Nat → Int × PollResult)
    (max_retries : Nat) : Option String :=
  checkFrom env polls 0 max_retries

/-! ## app.py: state and account model -/

/-- Modelled from the spec: the states of `browser_worker.AccountStatus`
(that file is not under src/), with the member names app.py references. -/
inductive AccountStatus where
  | PENDING
  | CREATING_EMAIL
  | ENTERING_EMAIL
  | WAITING_CODE
  | VERIFYING
  | COMPLETING
  | UPDATING
  | SUCCESS
  | FAILED
  deriving DecidableEq, Repr

/-- Modelled from the spec: the fields of `browser_worker.AccountInfo`
(that file is not under src/) that app.py constructs and mutates; the
session credential fields are irrelevant to the claims and omitted. -/
structure AccountInfo where
  email : String
  jwt : String
  status : AccountStatus
  email_config : Option EmailConfig
  error_message : String
  created_at : String
  deriving DecidableEq, Repr

/-- Modelled from the spec: the Automation Task interface of
`browser_worker.BrowserWorker` (that file is not under src/) as seen by the
orchestrator - its liveness flag and the account/mode it was started on. -/
structure BrowserWorker where
  alive : Bool
  account_email : String
  mode : String
  deriving DecidableEq, Repr

/-- The shared mutable state of app.py: the `accounts` and `workers` dicts,
the `task_queue` FIFO and the `config` object. -/
structure AppState where
  accounts : List (String × AccountInfo)
  workers : List (Nat × BrowserWorker)
  task_queue : List (String × AccountInfo)
  config : Config
  deriving DecidableEq, Repr

/-- Python dict read `d.get(k)` on an association list. -/
def assocGet {α β : Type} [DecidableEq α] (l : List (α × β)) (k : α) : Option β :=
  match l with
  | [] => none
  | (k', v) :: rest => if k' = k then some v else assocGet rest k

/-- Python dict write `d[k] = v` on an association list: replaces the
binding in place or appends a fresh one. -/
def assocSet {α β : Type} [DecidableEq α] (l : List (α × β)) (k : α) (v : β) :
    List (α × β) :=
  match l with
  | [] => [(k, v)]
  | (k', v') :: rest =>
      if k' = k then (k, v) :: rest else (k', v') :: assocSet rest k v

/-! ## app.py: worker-slot allocator -/

/-- The per-index test of the allocator scan:
`i not in workers or not workers[i].is_alive()`. -/
def slotFree (ws : List (Nat × BrowserWorker)) (i : Nat) : Bool :=
  match assocGet ws i with
  | none => true
  | some w => !w.alive

/-- `sum(1 for w in workers.values() if w.is_alive())`. -/
def aliveCount (ws : List (Nat × BrowserWorker)) : Nat :=
  ws.countP (fun p => p.2.alive)

/-- The scan `for i in range(max_workers): if free(i): return i`, starting at
index `i` with `fuel` indices left. -/
def findFreeSlot (ws : List (Nat × BrowserWorker)) : Nat → Nat → Option Nat
  | _, 0 => none
  | i, fuel + 1 =>
      if slotFree ws i then some i else findFreeSlot ws (i + 1) fuel

/-- `get_available_worker_slot` (app.py lines 74-84): `None` when the alive
occupants already reach `max_workers`, otherwise the first index in
`range(max_workers)` that is unused or whose occupant is dead (falling
through to `None` if the scan finds nothing). -/
def get_available_worker_slot (st : AppState) : Option Nat :=
  if (aliveCount st.workers : Int) ≥ st.config.max_workers then none
  else findFreeSlot st.workers 0 st.config.max_workers.toNat

/-- `start_worker`: constructs a `BrowserWorker` bound to the account and
mode, stores it under `worker_id` and starts it (so it is alive). -/
def start_worker (st : AppState) (worker_id : Nat) (account : AccountInfo)
    (mode : String) : AppState :=
  let w : BrowserWorker := { alive := true, account_email := account.email, mode := mode }
  { st with workers := assocSet st.workers worker_id w }

/-! ## app.py: orchestrator operations -/

/-- Result taxonomy of the mutating endpoints: HTTP 200 success, 404
account/domain not found, 400 invalid state ("只能重试失败的账号") or no
refreshable accounts, 429 capacity ("浏览器线程已达上限"). -/
inductive ApiResult where
  | ok
  | notFound
  | invalidState
  | capacity
  | badRequest
  deriving DecidableEq, Repr

/-- `get_email_config_by_domain` (app.py lines 116-128): `None` when the
email has no `'@'`, otherwise the first configured provider whose
`email_domain` equals, case-insensitively, the segment after the first
`'@'`. -/
def get_email_config_by_domain (cfgs : List EmailConfig) (email : String) :
    Option EmailConfig :=
  if email.data.contains ('@') = false then none
  else
    let domain := ((splitOnChar ('@') email.data).getD 1 []).map Char.toLower
    cfgs.find? (fun cfg => cfg.email_domain.data.map Char.toLower == domain)

/-- `create_account_from_email` (app.py lines 131-152): `None` when no
provider matches the domain; otherwise a fresh `AccountInfo` with the given
email, empty `jwt`, status `PENDING` and the matched provider configuration.
(The `EmailManager` the source also constructs has no effect and is
dropped.) -/
def create_account_from_email (cfgs : List EmailConfig) (email : String)
    (now : String) : Option AccountInfo :=
  match get_email_config_by_domain cfgs email with
  | none => none
  | some cfg =>
      some { email := email, jwt := "", status := AccountStatus.PENDING,
             email_config := some cfg, error_message := "", created_at := now }

/-- The tail of `refresh_account` shared by the existing-account and
synthesized-account paths (app.py lines 353-373): slot check, status to
`UPDATING`, save, start a refresh worker. -/
def refreshDispatch (st : AppState) (email : String) (account : AccountInfo) :
    ApiResult × AppState :=
  match get_available_worker_slot st with
  | none => (ApiResult.capacity, st)
  | some worker_id =>
      let account2 := { account with status := AccountStatus.UPDATING }
      let st2 := { st with accounts := assocSet st.accounts email account2 }
      (ApiResult.ok, start_worker st2 worker_id account2 ("refresh"))

/-- `refresh_account` (app.py lines 329-373): refresh an existing account,
or synthesize one from the email's domain first, saving it to the registry
before the slot check. -/
def refresh_account (st : AppState) (email : String) (now : String) :
    ApiResult × AppState :=
  match assocGet st.accounts email with
  | some account => refreshDispatch st email account
  | none =>
      match create_account_from_email st.config.email_configs email now with
      | none => (ApiResult.notFound, st)
      | some account =>
          let st1 := { st with accounts := assocSet st.accounts email account }
          refreshDispatch st1 email account

/-- `retry_account` (app.py lines 410-446): 404 when unknown, 400 when not
`FAILED`, 429 when no slot; otherwise clear the error, reset to `PENDING`,
save and start a register worker. -/
def retry_account (st : AppState) (email : String) : ApiResult × AppState :=
  match assocGet st.accounts email with
  | none => (ApiResult.notFound, st)
  | some account =>
      if account.status ≠ AccountStatus.FAILED then (ApiResult.invalidState, st)
      else
        match get_available_worker_slot st with
        | none => (ApiResult.capacity, st)
        | some worker_id =>
            let account2 :=
              { account with status := AccountStatus.PENDING, error_message := "" }
            let st2 := { st with accounts := assocSet st.accounts email account2 }
            (ApiResult.ok, start_worker st2 worker_id account2 ("register"))

/-- The per-account loop of `refresh_all_accounts` (app.py lines 392-402):
a granted slot starts a refresh worker on the `UPDATING` account; otherwise
the `('refresh', account)` pair is appended to the task queue.  (The
`queued_count` the source keeps feeds only the success message and is
dropped.) -/
def refreshAllLoop : AppState → List AccountInfo → AppState
  | st, [] => st
  | st, account :: rest =>
      match get_available_worker_slot st with
      | some worker_id =>
          let account2 := { account with status := AccountStatus.UPDATING }
          let st2 := { st with accounts := assocSet st.accounts account.email account2 }
          refreshAllLoop (start_worker st2 worker_id account2 ("refresh")) rest
      | none =>
          let st2 :=
            { st with task_queue := st.task_queue ++ [(("refresh" : String), account)] }
          refreshAllLoop st2 rest

/-- The `SUCCESS`-filtered snapshot `refresh_all_accounts` takes of the
registry values. -/
def successAccounts (st : AppState) : List AccountInfo :=
  (st.accounts.map Prod.snd).filter (fun a => a.status == AccountStatus.SUCCESS)

/-- `refresh_all_accounts` (app.py lines 376-407): 400 when no account is in
`SUCCESS`; otherwise every such account either gets a worker immediately or
is queued, and the call reports success. -/
def refresh_all_accounts (st : AppState) : ApiResult × AppState :=
  let succ := successAccounts st
  if succ.isEmpty then (ApiResult.badRequest, st)
  else (ApiResult.ok, refreshAllLoop st succ)

/-- The `max_workers` branch of the settings endpoint (app.py line 558):
`config.set_max_workers(int(data['max_workers']))`; the worker map is not
touched. -/
def update_settings_max_workers (st : AppState) (count : Int) : AppState :=
  { st with config := st.config.set_max_workers count }


/-! ## Concrete sample data for the closed corollaries -/

/-- Sample: one alive worker in slot 0, bound two. -/
def sampleStateC1 : AppState :=
  { accounts := [], workers := [(0, { alive := true, account_email := "a@x.com", mode := "register" })],
    task_queue := [], config := { max_workers := 2, email_configs := [] } }

/-- Sample: one alive worker in slot 0, bound one (pool full). -/
def sampleStateC1b : AppState :=
  { accounts := [], workers := [(0, { alive := true, account_email := "a@x.com", mode := "register" })],
    task_queue := [], config := { max_workers := 1, email_configs := [] } }

/-- Sample: a worker to insert into a granted slot. -/
def sampleWorkerC1 : BrowserWorker :=
  { alive := true, account_email := "c@x.com", mode := "refresh" }

/-- Sample mail environment whose extraction oracle does find a valid code,
and whose timestamp oracle dates every message at epoch second 0. -/
def sampleEnvC2 : MailEnv :=
  { receivedDate := fun _ => some ("Mon, 01 Jan 2024 00:00:00 +0000"),
    parsedate := fun _ => some 0,
    reSearchGroup := fun _ _ => some ("ABC123") }

/-- Sample poll sequence: every attempt happens at second 300 (five minutes
after the message timestamp) and returns the stale message. -/
def samplePollsC2 : Nat → Int × PollResult :=
  fun _ => (300, PollResult.response 200 [{ raw := "<span>ABC123</span>" }])

/-- Sample provider configuration for example.com. -/
def sampleCfgC3 : EmailConfig :=
  { worker_domain := "w.example.net", email_domain := "example.com", admin_password := "pw" }

/-- Sample: empty registry, a free worker pool, one configured provider. -/
def sampleStateC3 : AppState :=
  { accounts := [], workers := [], task_queue := [],
    config := { max_workers := 1, email_configs := [sampleCfgC3] } }

/-- Sample account in `FAILED` with a leftover error message. -/
def sampleFailedAcct : AccountInfo :=
  { email := "a@x.com", jwt := "", status := AccountStatus.FAILED,
    email_config := none, error_message := "boom", created_at := "t0" }

/-- Sample: the failed account is registered while an unrelated alive worker
occupies the only slot. -/
def sampleStateC4cx : AppState :=
  { accounts := [("a@x.com", sampleFailedAcct)],
    workers := [(0, { alive := true, account_email := "b@x.com", mode := "register" })],
    task_queue := [], config := { max_workers := 1, email_configs := [] } }

/-- Sample: the failed account is registered and the pool is empty. -/
def sampleStateC4w : AppState :=
  { accounts := [("a@x.com", sampleFailedAcct)], workers := [], task_queue := [],
    config := { max_workers := 1, email_configs := [] } }

/-- Sample account in `SUCCESS`. -/
def sampleSuccessAcct : AccountInfo :=
  { email := "s@x.com", jwt := "j", status := AccountStatus.SUCCESS,
    email_config := none, error_message := "", created_at := "t0" }

/-- Sample: one refreshable account while the only slot is taken. -/
def sampleStateC6 : AppState :=
  { accounts := [("s@x.com", sampleSuccessAcct)],
    workers := [(0, { alive := true, account_email := "b@x.com", mode := "register" })],
    task_queue := [], config := { max_workers := 1, email_configs := [] } }

/-- Sample mail environment whose oracles never produce anything. -/
def sampleEnvC7 : MailEnv :=
  { receivedDate := fun _ => none, parsedate := fun _ => none,
    reSearchGroup := fun _ _ => none }

/-- Sample poll sequence: a transport error, then an upstream 500, repeated. -/
def samplePollsC7 : Nat → Int × PollResult :=
  fun k => if k == 0 then (0, PollResult.transportError) else (3, PollResult.response 500 [])

/-- Sample poll sequence agreeing with `samplePollsC7` on the first two
attempts only. -/
def samplePollsC7b : Nat → Int × PollResult :=
  fun k => if k < 2 then samplePollsC7 k else (9, PollResult.response 200 [{ raw := "x" }])

/-- Sample provider configuration for example.org. -/
def sampleCfgC9 : EmailConfig :=
  { worker_domain := "mail.example.org", email_domain := "example.org", admin_password := "s" }

/-- Sample: empty registry, the only slot taken, one configured provider. -/
def sampleStateC9 : AppState :=
  { accounts := [],
    workers := [(0, { alive := true, account_email := "b@x.com", mode := "register" })],
    task_queue := [], config := { max_workers := 1, email_configs := [sampleCfgC9] } }

/-- Sample configuration with a first secret. -/
def sampleCfgA : Config :=
  { max_workers := 1,
    email_configs := [{ worker_domain := "w1", email_domain := "example.com", admin_password := "secret-one" }] }

/-- Sample configuration differing from `sampleCfgA` only in the secret. -/
def sampleCfgB : Config :=
  { max_workers := 1,
    email_configs := [{ worker_domain := "w1", email_domain := "example.com", admin_password := "secret-two" }] }

/-! ## Association-list and allocator lemmas -/

theorem assocGet_assocSet_self {α β : Type} [DecidableEq α] (l : List (α × β)) (k : α) (v : β) :
    assocGet (assocSet l k v) k = some v := by
  induction l with
  | nil => simp [assocSet, assocGet]
  | cons hd tl ih =>
      obtain ⟨k', v'⟩ := hd
      by_cases h : k' = k
      · subst h
        simp [assocSet, assocGet]
      · simp [assocSet, assocGet, h, ih]

theorem assocGet_mem {α β : Type} [DecidableEq α] {l : List (α × β)} {k : α} {v : β}
    (h : assocGet l k = some v) : (k, v) ∈ l := by
  induction l with
  | nil => simp [assocGet] at h
  | cons hd tl ih =>
      obtain ⟨k', v'⟩ := hd
      by_cases hk : k' = k
      · subst hk
        simp [assocGet] at h
        subst h
        exact List.mem_cons_self _ _
      · simp [assocGet, hk] at h
        exact List.mem_cons_of_mem _ (ih h)

theorem aliveCount_assocSet_le (ws : List (Nat × BrowserWorker)) (k : Nat) (w : BrowserWorker) :
    aliveCount (assocSet ws k w) ≤ aliveCount ws + 1 := by
  induction ws with
  | nil =>
      simp only [assocSet, aliveCount, List.countP_cons, List.countP_nil]
      split <;> omega
  | cons hd tl ih =>
      obtain ⟨k', v'⟩ := hd
      by_cases h : k' = k
      · simp only [assocSet, if_pos h, aliveCount, List.countP_cons] at *
        split <;> split <;> omega
      · simp only [assocSet, if_neg h, aliveCount, List.countP_cons] at *
        split <;> omega

theorem findFreeSlot_eq_some (ws : List (Nat × BrowserWorker)) :
    ∀ (fuel i j : Nat), findFreeSlot ws i fuel = some j →
      slotFree ws j = true ∧ i ≤ j ∧ j < i + fuel ∧
        ∀ k, i ≤ k → k < j → slotFree ws k = false := by
  intro fuel
  induction fuel with
  | zero => intro i j h; simp [findFreeSlot] at h
  | succ n ih =>
      intro i j h
      by_cases hf : slotFree ws i = true
      · rw [findFreeSlot, if_pos hf] at h
        have hij : i = j := by simpa using h
        subst hij
        exact ⟨hf, le_refl _, by omega, fun k hk1 hk2 => absurd hk1 (by omega)⟩
      · rw [findFreeSlot, if_neg hf] at h
        obtain ⟨h1, h2, h3, h4⟩ := ih (i + 1) j h
        refine ⟨h1, by omega, by omega, ?_⟩
        intro k hk1 hk2
        by_cases hk : k = i
        · subst hk
          exact Bool.eq_false_iff.mpr hf
        · exact h4 k (by omega) hk2

theorem findFreeSlot_exists (ws : List (Nat × BrowserWorker)) :
    ∀ (fuel i : Nat), (∃ j, i ≤ j ∧ j < i + fuel ∧ slotFree ws j = true) →
      findFreeSlot ws i fuel ≠ none := by
  intro fuel
  induction fuel with
  | zero =>
      rintro i ⟨j, h1, h2, _⟩
      omega
  | succ n ih =>
      rintro i ⟨j, h1, h2, h3⟩
      rw [findFreeSlot]
      by_cases hf : slotFree ws i = true
      · simp [hf]
      · rw [if_neg hf]
        apply ih
        have hne : j ≠ i := by
          intro he
          subst he
          exact hf h3
        exact ⟨j, by omega, by omega, h3⟩

theorem aliveCount_ge_of_no_free (ws : List (Nat × BrowserWorker))
    (hnodup : (ws.map Prod.fst).Nodup) (N : Nat)
    (h : ∀ i, i < N → slotFree ws i = false) : N ≤ aliveCount ws := by
  classical
  have hkey : ∀ i, i < N → i ∈ (ws.filter (fun p => p.2.alive)).map Prod.fst := by
    intro i hi
    have hfree := h i hi
    cases hget : assocGet ws i with
    | none =>
        simp only [slotFree, hget] at hfree
        exact Bool.noConfusion hfree
    | some w =>
        simp only [slotFree, hget] at hfree
        have halive : w.alive = true := by
          cases hw : w.alive
          · rw [hw] at hfree; simp at hfree
          · rfl
        have hmem : (i, w) ∈ ws := assocGet_mem hget
        have hmf : (i, w) ∈ ws.filter (fun p => p.2.alive) := by
          rw [List.mem_filter]
          exact ⟨hmem, halive⟩
        exact List.mem_map.mpr ⟨(i, w), hmf, rfl⟩
  have hsub : (ws.filter (fun p => p.2.alive)).Sublist ws := List.filter_sublist ws
  have hnd : ((ws.filter (fun p => p.2.alive)).map Prod.fst).Nodup :=
    hnodup.sublist (hsub.map Prod.fst)
  have hsubset : (List.range N) ⊆ (ws.filter (fun p => p.2.alive)).map Prod.fst := by
    intro x hx
    exact hkey x (List.mem_range.mp hx)
  have hcard : N ≤ ((ws.filter (fun p => p.2.alive)).map Prod.fst).length := by
    have h1 : ((List.range N).toFinset).card = N := by
      rw [List.toFinset_card_of_nodup (List.nodup_range N)]
      exact List.length_range N
    have h2 : (List.range N).toFinset ⊆
        ((ws.filter (fun p => p.2.alive)).map Prod.fst).toFinset := by
      intro x hx
      rw [List.mem_toFinset] at hx ⊢
      exact hsubset hx
    calc N = ((List.range N).toFinset).card := h1.symm
      _ ≤ (((ws.filter (fun p => p.2.alive)).map Prod.fst).toFinset).card :=
            Finset.card_le_card h2
      _ ≤ ((ws.filter (fun p => p.2.alive)).map Prod.fst).length :=
            List.toFinset_card_le _
  rw [aliveCount, List.countP_eq_length_filter]
  simpa using hcard

theorem slot_lt_toNat_max (st : AppState) (i : Nat)
    (h : get_available_worker_slot st = some i) : i < st.config.max_workers.toNat := by
  by_cases hc : (aliveCount st.workers : Int) ≥ st.config.max_workers
  · rw [get_available_worker_slot, if_pos hc] at h
    exact absurd h (by simp)
  · rw [get_available_worker_slot, if_neg hc] at h
    obtain ⟨_, _, h3, _⟩ := findFreeSlot_eq_some st.workers _ 0 i h
    omega


/-! ## Normalization and polling lemmas -/

theorem replaceAllF_of_no_occurrence (p : Char) (ps rep : List Char) :
    ∀ (s : List Char) (fuel : Nat), containsPat p ps s = false →
      replaceAllF p ps rep fuel s = s := by
  intro s
  induction s with
  | nil =>
      intro fuel _
      cases fuel <;> rfl
  | cons c rest ih =>
      intro fuel h
      simp only [containsPat, Bool.or_eq_false_iff] at h
      obtain ⟨h1, h2⟩ := h
      cases fuel with
      | zero => rfl
      | succ n =>
          rw [replaceAllF, if_neg (by simp [h1])]
          rw [ih n h2]

theorem replaceAll_of_no_occurrence (p : Char) (ps rep : List Char) (s : List Char)
    (h : containsPat p ps s = false) : replaceAll p ps rep s = s :=
  replaceAllF_of_no_occurrence p ps rep s s.length h

theorem checkFrom_eq_none_iff (env : MailEnv) (polls : Nat → Int × PollResult) :
    ∀ (fuel s : Nat), checkFrom env polls s fuel = none ↔
      ∀ k, s ≤ k → k < s + fuel → pollOnce env (polls k).1 (polls k).2 = none := by
  intro fuel
  induction fuel with
  | zero =>
      intro s
      constructor
      · intro _ k h1 h2
        omega
      · intro _
        rfl
  | succ n ih =>
      intro s
      rw [checkFrom]
      cases hp : pollOnce env (polls s).1 (polls s).2 with
      | some code =>
          constructor
          · intro h
            exact absurd h (by simp)
          · intro h
            have hc := h s (le_refl s) (by omega)
            rw [hp] at hc
            exact hc
      | none =>
          rw [ih (s + 1)]
          constructor
          · intro h k hk1 hk2
            by_cases hk : k = s
            · subst hk
              exact hp
            · exact h k (by omega) (by omega)
          · intro h k hk1 hk2
            exact h k (by omega) (by omega)

theorem checkFrom_congr (env : MailEnv) (polls polls2 : Nat → Int × PollResult) :
    ∀ (fuel s : Nat), (∀ k, s ≤ k → k < s + fuel → polls k = polls2 k) →
      checkFrom env polls s fuel = checkFrom env polls2 s fuel := by
  intro fuel
  induction fuel with
  | zero =>
      intro s _
      rfl
  | succ n ih =>
      intro s h
      rw [checkFrom, checkFrom, h s (le_refl s) (by omega)]
      cases hp : pollOnce env (polls2 s).1 (polls2 s).2 with
      | some code => rfl
      | none => exact ih (s + 1) (fun k h1 h2 => h k (by omega) (by omega))

/-! ## Dispatch-loop lemma -/

theorem refreshAllLoop_all_queued :
    ∀ (queue : List AccountInfo) (st : AppState),
      get_available_worker_slot st = none →
      (refreshAllLoop st queue).task_queue =
          st.task_queue ++ queue.map (fun a => (("refresh" : String), a)) ∧
      (refreshAllLoop st queue).workers = st.workers ∧
      (refreshAllLoop st queue).accounts = st.accounts ∧
      (refreshAllLoop st queue).config = st.config := by
  intro queue
  induction queue with
  | nil =>
      intro st _
      simp [refreshAllLoop]
  | cons a rest ih =>
      intro st h
      rw [refreshAllLoop, h]
      have h2 : get_available_worker_slot
          { st with task_queue := st.task_queue ++ [(("refresh" : String), a)] } = none := h
      obtain ⟨q1, q2, q3, q4⟩ :=
        ih { st with task_queue := st.task_queue ++ [(("refresh" : String), a)] } h2
      refine ⟨?_, q2, q3, q4⟩
      rw [q1]
      simp


/-! ## Claim theorems -/

/-- Claim C1: with `max_workers = N`, `get_available_worker_slot` returns
`None` whenever at least `N` workers are alive; otherwise it returns the
smallest index in `[0, N)` that is absent from the worker map or whose
occupant is dead, and filling a granted slot keeps the alive count at or
below `N`.  The hypothesis states that the worker map, being a Python dict,
has no duplicate keys. -/
theorem slot_allocator_correct (st : AppState)
    (hnodup : (st.workers.map Prod.fst).Nodup) :
    ((aliveCount st.workers : Int) ≥ st.config.max_workers →
        get_available_worker_slot st = none) ∧
    ((aliveCount st.workers : Int) < st.config.max_workers →
        ∃ i : Nat, get_available_worker_slot st = some i ∧
          (i : Int) < st.config.max_workers ∧ slotFree st.workers i = true ∧
          ∀ j : Nat, j < i → slotFree st.workers j = false) ∧
    (∀ i w, get_available_worker_slot st = some i →
        (aliveCount (assocSet st.workers i w) : Int) ≤ st.config.max_workers) := by
  refine ⟨?_, ?_, ?_⟩
  · intro h
    rw [get_available_worker_slot, if_pos h]
  · intro h
    have hmw0 : (0 : Int) ≤ st.config.max_workers :=
      le_trans (Int.ofNat_nonneg _) (le_of_lt h)
    have hN : (st.config.max_workers.toNat : Int) = st.config.max_workers :=
      Int.toNat_of_nonneg hmw0
    have hex : ∃ j, 0 ≤ j ∧ j < 0 + st.config.max_workers.toNat ∧
        slotFree st.workers j = true := by
      by_contra hno
      push_neg at hno
      have hall : ∀ i, i < st.config.max_workers.toNat → slotFree st.workers i = false := by
        intro i hi
        have hne := hno i (Nat.zero_le i) (by omega)
        exact Bool.eq_false_iff.mpr hne
      have hge := aliveCount_ge_of_no_free st.workers hnodup
        st.config.max_workers.toNat hall
      have hcast : (st.config.max_workers.toNat : Int) ≤ (aliveCount st.workers : Int) :=
        Int.ofNat_le.mpr hge
      rw [hN] at hcast
      omega
    have hsome := findFreeSlot_exists st.workers st.config.max_workers.toNat 0 hex
    cases hret : findFreeSlot st.workers 0 st.config.max_workers.toNat with
    | none => exact absurd hret hsome
    | some i =>
        obtain ⟨h1, _, h3, h4⟩ :=
          findFreeSlot_eq_some st.workers st.config.max_workers.toNat 0 i hret
        refine ⟨i, ?_, ?_, h1, ?_⟩
        · rw [get_available_worker_slot, if_neg (not_le.mpr h)]
          exact hret
        · omega
        · intro j hj
          exact h4 j (Nat.zero_le j) hj
  · intro i w hsome
    have hlt : (aliveCount st.workers : Int) < st.config.max_workers := by
      by_contra hge
      rw [get_available_worker_slot, if_pos (not_lt.mp hge)] at hsome
      exact Option.noConfusion hsome
    have hle := aliveCount_assocSet_le st.workers i w
    have hcast : (aliveCount (assocSet st.workers i w) : Int) ≤
        (aliveCount st.workers : Int) + 1 := by
      exact_mod_cast hle
    omega

/-- Witness for C1: with one alive worker and bound 1 the allocator returns
`None`; with bound 2 it grants a slot and inserting a live worker there
keeps the alive count within the bound. -/
theorem slot_allocator_correct_witness :
    get_available_worker_slot sampleStateC1b = none ∧
    (aliveCount (assocSet sampleStateC1.workers 1 sampleWorkerC1) : Int) ≤
      sampleStateC1.config.max_workers :=
  ⟨(slot_allocator_correct sampleStateC1b (by decide)).1 (by decide),
   (slot_allocator_correct sampleStateC1 (by decide)).2.2 1 sampleWorkerC1 (by decide)⟩

/-- Claim C8: `set_max_workers` stores `max(1, min(count, 10))`, a value in
`[1, 10]`; the worker map and account registry are untouched, and any slot a
subsequent allocator call grants lies below the new bound. -/
theorem set_max_workers_clamps (st : AppState) (count : Int) :
    (update_settings_max_workers st count).config.max_workers = max 1 (min count 10) ∧
    1 ≤ (update_settings_max_workers st count).config.max_workers ∧
    (update_settings_max_workers st count).config.max_workers ≤ 10 ∧
    (update_settings_max_workers st count).workers = st.workers ∧
    (update_settings_max_workers st count).accounts = st.accounts ∧
    (∀ i, get_available_worker_slot (update_settings_max_workers st count) = some i →
        (i : Int) < max 1 (min count 10)) := by
  refine ⟨rfl, le_max_left _ _, max_le (by norm_num) (min_le_right _ _), rfl, rfl, ?_⟩
  intro i hs
  have h1 := slot_lt_toNat_max _ i hs
  have h2 : (update_settings_max_workers st count).config.max_workers =
      max 1 (min count 10) := rfl
  rw [h2] at h1
  have hpos : (0 : Int) ≤ max 1 (min count 10) :=
    le_trans zero_le_one (le_max_left _ _)
  have hcast : ((max 1 (min count 10)).toNat : Int) = max 1 (min count 10) :=
    Int.toNat_of_nonneg hpos
  rw [← hcast]
  exact_mod_cast h1

/-- Witness for C8: setting the bound to 99 on a state with an empty pool
stores the clamp 10, leaves the maps alone, and the granted slot 0 is below
the clamp. -/
theorem set_max_workers_clamps_witness :
    (update_settings_max_workers sampleStateC3 99).config.max_workers = max 1 (min 99 10) ∧
    (update_settings_max_workers sampleStateC3 99).workers = sampleStateC3.workers ∧
    ((0 : Nat) : Int) < max 1 (min 99 10) :=
  ⟨(set_max_workers_clamps sampleStateC3 99).1,
   (set_max_workers_clamps sampleStateC3 99).2.2.2.1,
   (set_max_workers_clamps sampleStateC3 99).2.2.2.2.2 0 (by decide)⟩

/-- Counterexample for C5: the quoted-printable normalization is not
idempotent.  Normalizing `"=3D\r\n"` yields `"=\r\n"` (the `=3D` collapses
to `=`, creating a soft line break that was not there before), and
normalizing again deletes it. -/
theorem normalize_not_idempotent :
    normalizeBody (normalizeBody ['=', '3', 'D', '\r', '\n']) ≠
      normalizeBody ['=', '3', 'D', '\r', '\n'] ∧
    normalizeBody ['=', '3', 'D', '\r', '\n'] = ['=', '\r', '\n'] ∧
    normalizeBody ['=', '\r', '\n'] = [] := by decide

/-- Claim C5 (amended): the normalization is idempotent on every input whose
normalized form contains no further occurrence of `=\r\n`, `=\n` or `=3D`
(in particular on already-normalized text in that sense); it is not
idempotent on arbitrary input. -/
theorem normalize_idempotent_on_normal_forms (s : List Char)
    (h1 : containsPat ('=') ['\r', '\n'] (normalizeBody s) = false)
    (h2 : containsPat ('=') ['\n'] (normalizeBody s) = false)
    (h3 : containsPat ('=') ['3', 'D'] (normalizeBody s) = false) :
    normalizeBody (normalizeBody s) = normalizeBody s := by
  have e1 : replaceAll ('=') ['\r', '\n'] [] (normalizeBody s) = normalizeBody s :=
    replaceAll_of_no_occurrence _ _ _ _ h1
  have e2 : replaceAll ('=') ['\n'] [] (normalizeBody s) = normalizeBody s :=
    replaceAll_of_no_occurrence _ _ _ _ h2
  have e3 : replaceAll ('=') ['3', 'D'] ['='] (normalizeBody s) = normalizeBody s :=
    replaceAll_of_no_occurrence _ _ _ _ h3
  calc normalizeBody (normalizeBody s)
      = replaceAll ('=') ['3', 'D'] ['=']
          (replaceAll ('=') ['\n'] []
            (replaceAll ('=') ['\r', '\n'] [] (normalizeBody s))) := rfl
    _ = normalizeBody s := by rw [e1, e2, e3]

/-- Witness for C5: a body whose normal form contains no quoted-printable
artifact is a fixed point of a second normalization. -/
theorem normalize_idempotent_witness :
    normalizeBody (normalizeBody ("<span>ABC123</span>").data) =
      normalizeBody ("<span>ABC123</span>").data :=
  normalize_idempotent_on_normal_forms ("<span>ABC123</span>").data
    (by decide) (by decide) (by decide)


/-- Claim C2: whatever the extraction oracles would find in the body, a poll
whose newest message carries a parsed transport timestamp more than one
minute older than the current time extracts nothing, and the attempt loop
just moves on to the next attempt. -/
theorem stale_message_ignored (env : MailEnv) (now t : Int) (raw : String)
    (rest : List Message) (polls : Nat → Int × PollResult) (attempt fuel : Nat)
    (hparse : extractEmailTime env raw = some t)
    (hstale : now - t > 60)
    (hpoll : polls attempt = (now, PollResult.response 200 ({ raw := raw } :: rest))) :
    pollOnce env now (PollResult.response 200 ({ raw := raw } :: rest)) = none ∧
    checkFrom env polls attempt (fuel + 1) = checkFrom env polls (attempt + 1) fuel := by
  have h1 : pollOnce env now (PollResult.response 200 ({ raw := raw } :: rest)) = none := by
    simp only [pollOnce, hparse, hstale, if_pos rfl]
    simp [hstale]
  refine ⟨h1, ?_⟩
  rw [checkFrom, hpoll]
  simp only [h1]

/-- Witness for C2: the sole message is five minutes old, yet carries a body
in which the pattern oracle finds the valid code ABC123; the poll still
yields nothing and the loop advances. -/
theorem stale_message_ignored_witness :
    pollOnce sampleEnvC2 300 (PollResult.response 200 [{ raw := "<span>ABC123</span>" }]) = none ∧
    checkFrom sampleEnvC2 samplePollsC2 0 2 = checkFrom sampleEnvC2 samplePollsC2 1 1 :=
  stale_message_ignored sampleEnvC2 300 0 ("<span>ABC123</span>") [] samplePollsC2 0 1
    (by rfl) (by decide) (by rfl)

/-- Claim C7: `check_verification_code` yields `None` exactly when none of
its at most `max_retries` polls extracts a code; its result depends only on
those `max_retries` polls; and a transport error or a non-200 response is
one silently absorbed attempt. -/
theorem polling_budget (env : MailEnv) (polls polls2 : Nat → Int × PollResult) (n : Nat) :
    (check_verification_code env polls n = none ↔
        ∀ k, k < n → pollOnce env (polls k).1 (polls k).2 = none) ∧
    ((∀ k, k < n → polls k = polls2 k) →
        check_verification_code env polls n = check_verification_code env polls2 n) ∧
    (∀ now, pollOnce env now PollResult.transportError = none) ∧
    (∀ now status msgs, status ≠ 200 →
        pollOnce env now (PollResult.response status msgs) = none) := by
  refine ⟨?_, ?_, fun _ => rfl, ?_⟩
  · rw [check_verification_code, checkFrom_eq_none_iff env polls n 0]
    constructor
    · intro h k hk
      exact h k (Nat.zero_le k) (by omega)
    · intro h k _ hk
      exact h k (by omega)
  · intro h
    rw [check_verification_code, check_verification_code]
    exact checkFrom_congr env polls polls2 n 0 (fun k _ h2 => h k (by omega))
  · intro now status msgs h
    simp only [pollOnce]
    rw [if_neg (by simp [h])]

/-- Witness for C7: two attempts, a transport error then an upstream 500,
exhaust the budget into `None`; the result ignores polls beyond the budget;
both failure shapes are absorbed. -/
theorem polling_budget_witness :
    check_verification_code sampleEnvC7 samplePollsC7 2 = none ∧
    check_verification_code sampleEnvC7 samplePollsC7 2 =
      check_verification_code sampleEnvC7 samplePollsC7b 2 ∧
    pollOnce sampleEnvC7 0 PollResult.transportError = none ∧
    pollOnce sampleEnvC7 3 (PollResult.response 500 []) = none :=
  ⟨(polling_budget sampleEnvC7 samplePollsC7 samplePollsC7 2).1.mpr (by decide),
   (polling_budget sampleEnvC7 samplePollsC7 samplePollsC7b 2).2.1 (by decide),
   (polling_budget sampleEnvC7 samplePollsC7 samplePollsC7 2).2.2.1 0,
   (polling_budget sampleEnvC7 samplePollsC7 samplePollsC7 2).2.2.2 3 500 [] (by decide)⟩



/-! ## Refresh-path helper lemmas -/

theorem slot_ignores_accounts (st : AppState) (m : List (String × AccountInfo)) :
    get_available_worker_slot { st with accounts := m } = get_available_worker_slot st := rfl

theorem refresh_account_absent_eq (st : AppState) (email now : String) (acc : AccountInfo)
    (habsent : assocGet st.accounts email = none)
    (hacc : create_account_from_email st.config.email_configs email now = some acc) :
    refresh_account st email now =
      refreshDispatch { st with accounts := assocSet st.accounts email acc } email acc := by
  simp only [refresh_account, habsent, hacc]

theorem refreshDispatch_none (st : AppState) (email : String) (account : AccountInfo)
    (h : get_available_worker_slot st = none) :
    refreshDispatch st email account = (ApiResult.capacity, st) := by
  simp only [refreshDispatch, h]

theorem refreshDispatch_some (st : AppState) (email : String) (account : AccountInfo) (i : Nat)
    (h : get_available_worker_slot st = some i) :
    (refreshDispatch st email account).1 = ApiResult.ok ∧
    assocGet (refreshDispatch st email account).2.accounts email =
      some { account with status := AccountStatus.UPDATING } ∧
    assocGet (refreshDispatch st email account).2.workers i =
      some { alive := true, account_email := account.email, mode := "refresh" } := by
  simp only [refreshDispatch, h, start_worker]
  exact ⟨trivial, assocGet_assocSet_self _ _ _, assocGet_assocSet_self _ _ _⟩

/-- Claim C3: refreshing an email with no registry entry resolves a provider
by case-insensitive domain match; no match rejects the refresh as not-found
and leaves the state alone, while a match synthesizes an account with
exactly that email, an empty token and status PENDING, and a granted slot
starts a refresh worker on the given address. -/
theorem refresh_unknown_email_spec (st : AppState) (email now : String)
    (habsent : assocGet st.accounts email = none) :
    (get_email_config_by_domain st.config.email_configs email = none →
        refresh_account st email now = (ApiResult.notFound, st)) ∧
    (∀ cfg, get_email_config_by_domain st.config.email_configs email = some cfg →
        create_account_from_email st.config.email_configs email now =
          some { email := email, jwt := "", status := AccountStatus.PENDING,
                 email_config := some cfg, error_message := "", created_at := now } ∧
        (∀ i, get_available_worker_slot st = some i →
            (refresh_account st email now).1 = ApiResult.ok ∧
            assocGet (refresh_account st email now).2.accounts email =
              some { email := email, jwt := "", status := AccountStatus.UPDATING,
                     email_config := some cfg, error_message := "", created_at := now } ∧
            assocGet (refresh_account st email now).2.workers i =
              some { alive := true, account_email := email, mode := "refresh" })) := by
  constructor
  · intro hno
    simp only [refresh_account, habsent, create_account_from_email, hno]
  · intro cfg hcfg
    have hacc : create_account_from_email st.config.email_configs email now =
        some { email := email, jwt := "", status := AccountStatus.PENDING,
               email_config := some cfg, error_message := "", created_at := now } := by
      simp only [create_account_from_email, hcfg]
    refine ⟨hacc, ?_⟩
    intro i hi
    set acc : AccountInfo :=
      { email := email, jwt := "", status := AccountStatus.PENDING,
        email_config := some cfg, error_message := "", created_at := now } with haccdef
    have hred := refresh_account_absent_eq st email now acc habsent hacc
    have hslot1 : get_available_worker_slot
        { st with accounts := assocSet st.accounts email acc } = some i := hi
    rw [hred]
    exact refreshDispatch_some _ email acc i hslot1

/-- Witness for C3: refreshing the unknown `user@example.com` against a
provider configured for `example.com` with a free pool synthesizes the
PENDING account and starts a refresh worker in slot 0 on that address. -/
theorem refresh_unknown_email_witness :
    create_account_from_email sampleStateC3.config.email_configs ("user@example.com") ("t0") =
      some { email := "user@example.com", jwt := "", status := AccountStatus.PENDING,
             email_config := some sampleCfgC3, error_message := "", created_at := "t0" } ∧
    (refresh_account sampleStateC3 ("user@example.com") ("t0")).1 = ApiResult.ok ∧
    assocGet (refresh_account sampleStateC3 ("user@example.com") ("t0")).2.accounts
        ("user@example.com") =
      some { email := "user@example.com", jwt := "", status := AccountStatus.UPDATING,
             email_config := some sampleCfgC3, error_message := "", created_at := "t0" } ∧
    assocGet (refresh_account sampleStateC3 ("user@example.com") ("t0")).2.workers 0 =
      some { alive := true, account_email := "user@example.com", mode := "refresh" } := by
  have h := refresh_unknown_email_spec sampleStateC3 ("user@example.com") ("t0") (by rfl)
  obtain ⟨hacc, hrest⟩ := h.2 sampleCfgC3 (by decide)
  obtain ⟨r1, r2, r3⟩ := hrest 0 (by decide)
  exact ⟨hacc, r1, r2, r3⟩

/-- Counterexample for C4: a FAILED, registered account whose retry is
nevertheless rejected (with the capacity error, the pool being full), so
existence plus FAILED status alone do not make retry accepted. -/
theorem retry_not_accepted_when_full :
    assocGet sampleStateC4cx.accounts ("a@x.com") = some sampleFailedAcct ∧
    sampleFailedAcct.status = AccountStatus.FAILED ∧
    retry_account sampleStateC4cx ("a@x.com") = (ApiResult.capacity, sampleStateC4cx) ∧
    (retry_account sampleStateC4cx ("a@x.com")).1 ≠ ApiResult.ok := by decide

/-- Claim C4 (amended): retry is accepted iff the account exists, its status
is FAILED and a worker slot is available; acceptance resets the account to
PENDING with a cleared error message; a non-FAILED account yields the
invalid-state failure with the state unchanged; an unknown email yields
not-found; a FAILED account without a free slot yields the capacity failure
with the state unchanged. -/
theorem retry_account_behaviour (st : AppState) (email : String) :
    (assocGet st.accounts email = none →
        retry_account st email = (ApiResult.notFound, st)) ∧
    (∀ a, assocGet st.accounts email = some a → a.status ≠ AccountStatus.FAILED →
        retry_account st email = (ApiResult.invalidState, st)) ∧
    (∀ a, assocGet st.accounts email = some a → a.status = AccountStatus.FAILED →
        get_available_worker_slot st = none →
        retry_account st email = (ApiResult.capacity, st)) ∧
    (∀ a i, assocGet st.accounts email = some a → a.status = AccountStatus.FAILED →
        get_available_worker_slot st = some i →
        (retry_account st email).1 = ApiResult.ok ∧
        assocGet (retry_account st email).2.accounts email =
          some { a with status := AccountStatus.PENDING, error_message := "" } ∧
        assocGet (retry_account st email).2.workers i =
          some { alive := true, account_email := a.email, mode := "register" }) := by
  refine ⟨?_, ?_, ?_, ?_⟩
  · intro h
    simp only [retry_account, h]
  · intro a ha hs
    simp only [retry_account, ha, if_pos hs]
  · intro a ha hs hslot
    simp only [retry_account, ha]
    rw [if_neg (by simp [hs])]
    simp only [hslot]
  · intro a i ha hs hslot
    simp only [retry_account, ha]
    rw [if_neg (by simp [hs])]
    simp only [hslot, start_worker]
    exact ⟨trivial, assocGet_assocSet_self _ _ _, assocGet_assocSet_self _ _ _⟩

/-- Witness for C4 (amended): with a free pool the retry of the FAILED
account is accepted, clears the error message and resets the status. -/
theorem retry_account_behaviour_witness :
    (retry_account sampleStateC4w ("a@x.com")).1 = ApiResult.ok ∧
    assocGet (retry_account sampleStateC4w ("a@x.com")).2.accounts ("a@x.com") =
      some { sampleFailedAcct with status := AccountStatus.PENDING, error_message := "" } ∧
    assocGet (retry_account sampleStateC4w ("a@x.com")).2.workers 0 =
      some { alive := true, account_email := sampleFailedAcct.email, mode := "register" } :=
  (retry_account_behaviour sampleStateC4w ("a@x.com")).2.2.2 sampleFailedAcct 0
    (by decide) (by decide) (by decide)

/-- Claim C6: with the pool exhausted, a single-account refresh fails with
the capacity error and changes nothing (in particular queues nothing),
whereas the bulk refresh still reports success, queues a
`('refresh', account)` pair for every SUCCESS account in order, and starts
no worker. -/
theorem capacity_policy_split (st : AppState) (email now : String) :
    (∀ a, assocGet st.accounts email = some a →
        get_available_worker_slot st = none →
        refresh_account st email now = (ApiResult.capacity, st)) ∧
    (get_available_worker_slot st = none → successAccounts st ≠ [] →
        (refresh_all_accounts st).1 = ApiResult.ok ∧
        (refresh_all_accounts st).2.task_queue =
          st.task_queue ++ (successAccounts st).map (fun a => (("refresh" : String), a)) ∧
        (refresh_all_accounts st).2.workers = st.workers ∧
        (refresh_all_accounts st).2.accounts = st.accounts) := by
  constructor
  · intro a ha hslot
    simp only [refresh_account, ha, refreshDispatch, hslot]
  · intro hslot hne
    have hempty : (successAccounts st).isEmpty = false := by
      cases hs : successAccounts st with
      | nil => exact absurd hs hne
      | cons _ _ => rfl
    obtain ⟨q1, q2, q3, _⟩ := refreshAllLoop_all_queued (successAccounts st) st hslot
    simp only [refresh_all_accounts, hempty, Bool.false_eq_true, if_false]
    exact ⟨trivial, q1, q2, q3⟩

/-- Witness for C6: one SUCCESS account and a full one-slot pool; the single
refresh fails with capacity and the state is untouched, while the bulk
refresh reports success and queues the account. -/
theorem capacity_policy_split_witness :
    refresh_account sampleStateC6 ("s@x.com") ("t2") = (ApiResult.capacity, sampleStateC6) ∧
    (refresh_all_accounts sampleStateC6).1 = ApiResult.ok ∧
    (refresh_all_accounts sampleStateC6).2.task_queue =
      [(("refresh" : String), sampleSuccessAcct)] ∧
    (refresh_all_accounts sampleStateC6).2.workers = sampleStateC6.workers := by
  have h := capacity_policy_split sampleStateC6 ("s@x.com") ("t2")
  obtain ⟨r1, r2, r3, _⟩ := h.2 (by decide) (by decide)
  exact ⟨h.1 sampleSuccessAcct (by decide) (by decide), r1, r2.trans (by decide), r3⟩

/-- Claim C9: a refresh of an unknown email whose domain matches a provider,
issued while no slot is free, returns the capacity error even though the
synthesized PENDING account has already been inserted into the registry and
remains there: the failing refresh is not atomic. -/
theorem refresh_capacity_not_atomic (st : AppState) (email now : String) (cfg : EmailConfig)
    (habsent : assocGet st.accounts email = none)
    (hcfg : get_email_config_by_domain st.config.email_configs email = some cfg)
    (hfull : get_available_worker_slot st = none) :
    (refresh_account st email now).1 = ApiResult.capacity ∧
    (refresh_account st email now).2 =
      { st with accounts := assocSet st.accounts email { email := email, jwt := "", status := AccountStatus.PENDING, email_config := some cfg, error_message := "", created_at := now } } ∧
    assocGet (refresh_account st email now).2.accounts email =
      some { email := email, jwt := "", status := AccountStatus.PENDING,
             email_config := some cfg, error_message := "", created_at := now } := by
  have hacc : create_account_from_email st.config.email_configs email now =
      some { email := email, jwt := "", status := AccountStatus.PENDING,
             email_config := some cfg, error_message := "", created_at := now } := by
    simp only [create_account_from_email, hcfg]
  set acc : AccountInfo :=
    { email := email, jwt := "", status := AccountStatus.PENDING,
      email_config := some cfg, error_message := "", created_at := now } with haccdef
  have hred := refresh_account_absent_eq st email now acc habsent hacc
  have hslot1 : get_available_worker_slot
      { st with accounts := assocSet st.accounts email acc } = none := hfull
  have hd := refreshDispatch_none _ email acc hslot1
  rw [hred, hd]
  exact ⟨rfl, rfl, assocGet_assocSet_self _ _ _⟩

/-- Witness for C9: refreshing the unknown `u@example.org` with the only
slot occupied fails with capacity, yet the PENDING account is left in the
registry. -/
theorem refresh_capacity_not_atomic_witness :
    (refresh_account sampleStateC9 ("u@example.org") ("t1")).1 = ApiResult.capacity ∧
    assocGet (refresh_account sampleStateC9 ("u@example.org") ("t1")).2.accounts
        ("u@example.org") =
      some { email := "u@example.org", jwt := "", status := AccountStatus.PENDING,
             email_config := some sampleCfgC9, error_message := "", created_at := "t1" } := by
  have h := refresh_capacity_not_atomic sampleStateC9 ("u@example.org") ("t1") sampleCfgC9
    (by rfl) (by decide) (by decide)
  exact ⟨h.1, h.2.2⟩

/-- Claim C10: the sanitized provider listing reports `'***'` as the admin
password of every entry, and two configurations that agree except on admin
passwords produce identical listings, so the secrets never flow into the
settings or email-config responses built from it. -/
theorem email_configs_safe_no_leak (c : Config) :
    (∀ e, e ∈ Config.get_email_configs_safe c → e.admin_password = "***") ∧
    (∀ c2 : Config,
        c.email_configs.map (fun x => (x.worker_domain, x.email_domain)) =
          c2.email_configs.map (fun x => (x.worker_domain, x.email_domain)) →
        Config.get_email_configs_safe c = Config.get_email_configs_safe c2) := by
  constructor
  · intro e he
    simp only [Config.get_email_configs_safe, List.mem_map] at he
    obtain ⟨cfg, _, rfl⟩ := he
    rfl
  · intro c2 h
    have key : ∀ cc : Config, Config.get_email_configs_safe cc =
        (cc.email_configs.map (fun x => (x.worker_domain, x.email_domain))).map
          (fun p => { worker_domain := p.1, email_domain := p.2, admin_password := "***" }) := by
      intro cc
      rw [List.map_map]
      rfl
    rw [key c, key c2, h]

/-- Witness for C10: two configurations differing only in the secret mask to
the same listing, whose entry carries the literal `'***'`. -/
theorem email_configs_safe_no_leak_witness :
    EmailConfig.admin_password
        ({ worker_domain := "w1", email_domain := "example.com", admin_password := "***" }) =
      "***" ∧
    Config.get_email_configs_safe sampleCfgA = Config.get_email_configs_safe sampleCfgB :=
  ⟨(email_configs_safe_no_leak sampleCfgA).1
      ({ worker_domain := "w1", email_domain := "example.com", admin_password := "***" })
      (by decide),
   (email_configs_safe_no_leak sampleCfgA).2 sampleCfgB (by decide)⟩

end TestBand
